import Mathlib

/-!
Shallow embedding of the staged interval-remapping pipeline of `src/day05.rs`
(types `Component`, `CorrelationRule`, `CorrelationTable`, `SeedBag`,
`SeedField`, `SeedFarm`, `Almanac` and their operations), together with
theorems settling the specification claims about it.

Rust `isize` coordinates are embedded as `Int` (the program never relies on
overflow); Rust functions that can panic (unwrapping a failed parse, a
malformed line shape) are embedded as `Option`-valued functions returning
`none` where the original panics.
-/

set_option maxRecDepth 4000

namespace Day05

/-- The eight pipeline categories, each carrying an integer coordinate
(Rust `enum Component`). -/
inductive Component where
  | Seed (n : Int)
  | Soil (n : Int)
  | Fertilizer (n : Int)
  | Water (n : Int)
  | Light (n : Int)
  | Temperature (n : Int)
  | Humidity (n : Int)
  | Location (n : Int)
deriving DecidableEq, Repr

/-- In Rust, `ComponentKind` is a constructor function pointer
`fn(isize) -> Component`; embedded as the enumeration of the eight
constructors. -/
inductive ComponentKind where
  | Seed
  | Soil
  | Fertilizer
  | Water
  | Light
  | Temperature
  | Humidity
  | Location
deriving DecidableEq, Repr

/-- Application of a `ComponentKind` (a constructor pointer in Rust) to a
coordinate. -/
def ComponentKind.apply : ComponentKind → Int → Component
  | .Seed, n => .Seed n
  | .Soil, n => .Soil n
  | .Fertilizer, n => .Fertilizer n
  | .Water, n => .Water n
  | .Light, n => .Light n
  | .Temperature, n => .Temperature n
  | .Humidity, n => .Humidity n
  | .Location, n => .Location n

/-- `Component::parse`: name of a category to its constructor; the Rust
original panics on an unknown name, embedded as `none`. -/
def Component.parse : String → Option ComponentKind
  | "seed" => some .Seed
  | "soil" => some .Soil
  | "fertilizer" => some .Fertilizer
  | "water" => some .Water
  | "light" => some .Light
  | "temperature" => some .Temperature
  | "humidity" => some .Humidity
  | "location" => some .Location
  | _ => none

/-- `Component::number`: the coordinate carried by a component. -/
def Component.number : Component → Int
  | .Seed n => n
  | .Soil n => n
  | .Fertilizer n => n
  | .Water n => n
  | .Light n => n
  | .Temperature n => n
  | .Humidity n => n
  | .Location n => n

/-- `Component::is_a`: `*self == kind(self.number())`. -/
def Component.is_a (c : Component) (kind : ComponentKind) : Bool :=
  c = kind.apply c.number

/-- Rust `Range<isize>` (`start..end`, half-open); `end` is a Lean keyword so
the upper bound is named `stop`. -/
structure IntRange where
  start : Int
  stop : Int
deriving DecidableEq, Repr

/-- `Range::contains` for `Range<isize>`: `start <= n && n < end`. -/
def IntRange.contains (r : IntRange) (n : Int) : Bool :=
  r.start ≤ n && n < r.stop

/-- `CorrelationRule`: a source interval plus a signed offset. -/
structure CorrelationRule where
  range : IntRange
  offset : Int
deriving DecidableEq, Repr

/-- `CorrelationRule::apply`: `Some(number + offset)` when the source range
contains the number, `None` otherwise. -/
def CorrelationRule.apply (rule : CorrelationRule) (number : Int) : Option Int :=
  if rule.range.contains number then some (number + rule.offset) else none

/-- `CorrelationTable`: a (source, destination) category pair plus a rule
list. -/
structure CorrelationTable where
  source : ComponentKind
  destination : ComponentKind
  rules : List CorrelationRule
deriving DecidableEq, Repr

/-- `CorrelationTable::lookup`: early-return `None` when the component is not
of the table's source kind; otherwise translate the coordinate through the
first matching rule (`find_map`), falling back to the identity
(`unwrap_or`), and tag the result with the destination kind. -/
def CorrelationTable.lookup (t : CorrelationTable) (component : Component) :
    Option Component :=
  if !component.is_a t.source then none
  else
    some (t.destination.apply
      ((t.rules.findSome? (fun rule => rule.apply component.number)).getD
        component.number))

/-!
Text is handled as `List Char` (the `data` of a `String`): the built-in
`String` functions do not reduce inside the kernel, so the string
operations the parser needs (`splitOn`, `split_whitespace`, integer
parsing) are embedded as structural recursions over character lists with
the same semantics.
-/

/-- `s.strip_prefix(sep)`-style helper: the rest of `s` after the literal
prefix `sep`, when `sep` is a prefix of `s`. -/
def sepRest? : List Char → List Char → Option (List Char)
  | [], s => some s
  | _ :: _, [] => none
  | c :: cs, d :: ds => if c = d then sepRest? cs ds else none

/-- Worker for `splitOnChars`: scans left to right, cutting at every
non-overlapping occurrence of `sep`; `fuel` bounds the recursion (one unit
per consumed character suffices). -/
def splitOnAux (sep : List Char) : Nat → List Char → List Char → List (List Char)
  | 0, s, acc => [acc.reverse ++ s]
  | fuel + 1, s, acc =>
    match s with
    | [] => [acc.reverse]
    | c :: rest =>
      match sepRest? sep s with
      | some remainder => acc.reverse :: splitOnAux sep fuel remainder []
      | none => splitOnAux sep fuel rest (c :: acc)

/-- `str::split` on a literal separator (the semantics of the `splitOn`
calls in the Rust parser): leftmost non-overlapping occurrences, keeping
empty pieces. -/
def splitOnChars (sep s : List Char) : List (List Char) :=
  if sep = [] then [s] else splitOnAux sep (s.length + 1) s []

/-- `str::split_whitespace`, first stage: cut at every whitespace
character, keeping empty pieces. -/
def splitWsAux : List Char → List Char → List (List Char)
  | [], acc => [acc.reverse]
  | c :: cs, acc =>
    if c.isWhitespace then acc.reverse :: splitWsAux cs []
    else splitWsAux cs (c :: acc)

/-- `str::split_whitespace`: the non-empty maximal runs between whitespace
characters. -/
def splitWhitespace (s : List Char) : List (List Char) :=
  (splitWsAux s []).filter (· ≠ [])

/-- Decimal digits to a number, most significant first; `none` on a
non-digit. -/
def natOfDigitsAux : List Char → Nat → Option Nat
  | [], acc => some acc
  | c :: cs, acc =>
    if c.isDigit then natOfDigitsAux cs (acc * 10 + (c.toNat - 48)) else none

/-- `isize::from_str`: an optional sign followed by at least one decimal
digit. -/
def intOfChars : List Char → Option Int
  | [] => none
  | '-' :: cs =>
    if cs = [] then none else (natOfDigitsAux cs 0).map (fun n => -(n : Int))
  | '+' :: cs =>
    if cs = [] then none else (natOfDigitsAux cs 0).map (fun n => (n : Int))
  | cs => (natOfDigitsAux cs 0).map (fun n => (n : Int))

/-- `CorrelationTable::parse_rule`, first stage: split the line on
whitespace and parse every field as an integer (a parse failure panics in
Rust, hence `none`). -/
def ruleNumbers (rule : List Char) : Option (List Int) :=
  (splitWhitespace rule).mapM intOfChars

/-- `CorrelationTable::parse_rule`: the line must carry exactly the triple
`to from range_length`; the rule built is
`{ range: from..(from + range_length), offset: to - from }`. -/
def CorrelationTable.parse_rule (rule : List Char) : Option CorrelationRule := do
  match ← ruleNumbers rule with
  | [dst, src, range_length] =>
      some ⟨⟨src, src + range_length⟩, dst - src⟩
  | _ => none

/-- `CorrelationTable::parse_header`: the header regex
`(?<source>\w+)-to-(?<destination>\w+) map:` captures the two category
names, which `Component::parse` resolves (panic, hence `none`, when
unknown). Modelled on the well-formed header shape
`<source>-to-<destination> map:` the regex is applied to. -/
def CorrelationTable.parse_header (header : List Char) :
    Option (ComponentKind × ComponentKind) :=
  match splitOnChars " map:".data header with
  | [names, []] =>
      match splitOnChars "-to-".data names with
      | [s, d] => do
          let source ← Component.parse ⟨s⟩
          let destination ← Component.parse ⟨d⟩
          some (source, destination)
      | _ => none
  | _ => none

/-- `CorrelationTable::parse`: first line is the header, every remaining
line is a rule. -/
def CorrelationTable.parse (table : List Char) : Option CorrelationTable :=
  match splitOnChars "\n".data table with
  | [] => none
  | header :: rest => do
      let (source, destination) ← CorrelationTable.parse_header header
      let rules ← rest.mapM CorrelationTable.parse_rule
      some ⟨source, destination, rules⟩

/-- `SeedBag`: a discrete list of seed components. -/
structure SeedBag where
  seeds : List Component
deriving Repr

/-- `SeedBag::iter`. -/
def SeedBag.iter (bag : SeedBag) : List Component := bag.seeds

/-- `SeedField`: one contiguous range of seed coordinates. -/
structure SeedField where
  range : IntRange
deriving Repr

/-- The list of integers of a half-open range, in order — the embedding of
iterating a Rust `Range<isize>`. -/
def IntRange.toList (r : IntRange) : List Int :=
  (List.range (r.stop - r.start).toNat).map (fun i => r.start + i)

/-- `SeedField::iter`: `self.range.clone().map(Seed)` — enumerates every
individual coordinate of the range as a `Seed` component. -/
def SeedField.iter (f : SeedField) : List Component :=
  f.range.toList.map Component.Seed

/-- `SeedFarm`: a list of seed ranges. -/
structure SeedFarm where
  fields : List SeedField
deriving Repr

/-- `SeedFarm::iter`: flat-maps every field's per-coordinate enumeration. -/
def SeedFarm.iter (farm : SeedFarm) : List Component :=
  farm.fields.flatMap SeedField.iter

/-- `chunks_exact(2)` over a list, dropping a leftover element. -/
def chunksExact2 : List Int → List (Int × Int)
  | a :: b :: rest => (a, b) :: chunksExact2 rest
  | _ => []

/-- `SeedFarm::new`: pairs of `(start, count)` become fields
`start..(start + count)`. -/
def SeedFarm.new (numbers : List Int) : SeedFarm :=
  ⟨(chunksExact2 numbers).map (fun chunk => ⟨⟨chunk.1, chunk.1 + chunk.2⟩⟩)⟩

/-- `Almanac`: the parsed list of correlation tables. -/
structure Almanac where
  tables : List CorrelationTable
deriving DecidableEq, Repr

/-- `instructions.join("\n")`. -/
def joinLines : List (List Char) → List Char
  | [] => []
  | [l] => l
  | l :: ls => l ++ '\n' :: joinLines ls

/-- The blank-line-separated blocks of an instruction list:
`instructions.join("\n").split("\n\n")`. -/
def almanacBlocks (instructions : List String) : List (List Char) :=
  splitOnChars "\n\n".data (joinLines (instructions.map String.data))

/-- `Almanac::parse`: join the instruction lines, split on blank lines into
blocks, and parse every block as a table. No property of the resulting
table list (in particular no contiguity of the category chain) is
checked. -/
def Almanac.parse (instructions : List String) : Option Almanac :=
  ((almanacBlocks instructions).mapM CorrelationTable.parse).map Almanac.mk

/-- `Almanac::correlate`: the first table whose lookup succeeds. -/
def Almanac.correlate (a : Almanac) (component : Component) : Option Component :=
  a.tables.findSome? (fun table => table.lookup component)

/-- `Almanac::location_for`: fold the component through every table's
lookup in order, propagating `None`. -/
def Almanac.location_for (a : Almanac) (component : Component) : Option Component :=
  a.tables.foldl
    (fun result table =>
      match result with
      | some c => table.lookup c
      | none => none)
    (some component)

/-- `Almanac::lowest_location_number_of`: point-evaluate every seed,
silently dropping failures (`filter_map`), and take the minimum coordinate
(`None` when nothing remains). -/
def Almanac.lowest_location_number_of (a : Almanac) (seeds : List Component) :
    Option Int :=
  ((seeds.filterMap (fun seed => a.location_for seed)).map Component.number).min?

/-- Contiguity of a table list's category chain: every table's destination
is the next table's source (the spec's Pipeline construction invariant;
stated here as the predicate the claims quantify over — the source never
computes it). -/
def chainContiguous : List CorrelationTable → Bool
  | t1 :: t2 :: rest => t1.destination == t2.source && chainContiguous (t2 :: rest)
  | _ => true

/-- Build a rule from a published `(destination_start, source_start, length)`
triple exactly as `parse_rule` derives it: source interval
`[src, src + len)` and offset `dst - src`. -/
def ruleOfTriple (dst src len : Int) : CorrelationRule :=
  ⟨⟨src, src + len⟩, dst - src⟩

/-- Modelled from the spec: the published 7-stage example table set (the
`daily_example(5)` data file, which is not under `src/`), §8's canonical
end-to-end and range scenarios. Each rule is the verbatim published triple
`(destination_start, source_start, length)`. -/
def exampleAlmanac : Almanac :=
  ⟨[⟨.Seed, .Soil, [ruleOfTriple 50 98 2, ruleOfTriple 52 50 48]⟩,
    ⟨.Soil, .Fertilizer,
      [ruleOfTriple 0 15 37, ruleOfTriple 37 52 2, ruleOfTriple 39 0 15]⟩,
    ⟨.Fertilizer, .Water,
      [ruleOfTriple 49 53 8, ruleOfTriple 0 11 42, ruleOfTriple 42 0 7,
       ruleOfTriple 57 7 4]⟩,
    ⟨.Water, .Light, [ruleOfTriple 88 18 7, ruleOfTriple 18 25 70]⟩,
    ⟨.Light, .Temperature,
      [ruleOfTriple 45 77 23, ruleOfTriple 81 45 19, ruleOfTriple 68 64 13]⟩,
    ⟨.Temperature, .Humidity, [ruleOfTriple 0 69 1, ruleOfTriple 1 0 69]⟩,
    ⟨.Humidity, .Location, [ruleOfTriple 60 56 37, ruleOfTriple 56 93 4]⟩]⟩

/-- Modelled from the spec: the example seed line `seeds: 79 14 55 13`
read in range mode, i.e. `SeedFarm::new` on the published numbers. -/
def exampleFarm : SeedFarm := SeedFarm.new [79, 14, 55, 13]

/-- The kind (category) of a component — the spec's notion of the Category
of a Quantity. -/
def Component.kind : Component → ComponentKind
  | .Seed _ => .Seed
  | .Soil _ => .Soil
  | .Fertilizer _ => .Fertilizer
  | .Water _ => .Water
  | .Light _ => .Light
  | .Temperature _ => .Temperature
  | .Humidity _ => .Humidity
  | .Location _ => .Location

/-- Pairwise disjointness of the source intervals of a rule list — the
input contract the spec assumes for the rules of one table. -/
def rulesDisjoint (rules : List CorrelationRule) : Prop :=
  rules.Pairwise (fun r s => ∀ n : Int,
    ¬(r.range.contains n = true ∧ s.range.contains n = true))

/-- A one-rule table used to instantiate the point-lookup theorems on
concrete inputs. -/
def pointTable : CorrelationTable := ⟨.Seed, .Soil, [ruleOfTriple 50 98 2]⟩

/-- The example's seed-to-soil stage with its two rules, used to
instantiate the rule-order theorem. -/
def twoRuleTable : CorrelationTable :=
  ⟨.Seed, .Soil, [ruleOfTriple 50 98 2, ruleOfTriple 52 50 48]⟩

/-- An almanac whose single table consumes soil, so that every seed
component fails category matching at the first stage. -/
def mismatchAlmanac : Almanac := ⟨[⟨.Soil, .Fertilizer, []⟩]⟩

/-- A one-stage almanac ending in the location category, used to
instantiate the destination-kind theorem. -/
def lastStageAlmanac : Almanac := ⟨[⟨.Humidity, .Location, []⟩]⟩

/-- The instruction lines of a two-table almanac whose category chain has
a gap (seed→soil followed by water→light). -/
def brokenChainLines : List String :=
  ["seed-to-soil map:", "50 98 2", "", "water-to-light map:", "88 18 7"]

/-- The almanac that `brokenChainLines` parses to. -/
def brokenChainAlmanac : Almanac :=
  ⟨[⟨.Seed, .Soil, [⟨⟨98, 100⟩, -48⟩]⟩,
    ⟨.Water, .Light, [⟨⟨18, 25⟩, 70⟩]⟩]⟩

/-! ## Helper lemmas -/

theorem ComponentKind.number_apply (k : ComponentKind) (n : Int) :
    (k.apply n).number = n := by
  cases k <;> rfl

theorem ComponentKind.kind_apply (k : ComponentKind) (n : Int) :
    (k.apply n).kind = k := by
  cases k <;> rfl

theorem Component.apply_kind_number (c : Component) :
    c.kind.apply c.number = c := by
  cases c <;> rfl

theorem Component.is_a_iff_kind (c : Component) (k : ComponentKind) :
    c.is_a k = true ↔ c.kind = k := by
  constructor
  · intro h
    have hc : c = k.apply c.number := by
      simpa [Component.is_a] using h
    rw [hc, ComponentKind.kind_apply]
  · intro h
    have hc : c = k.apply c.number := by
      conv_lhs => rw [← c.apply_kind_number]
      rw [h]
    simpa [Component.is_a] using hc

theorem ComponentKind.is_a_apply (k : ComponentKind) (n : Int) :
    (k.apply n).is_a k = true :=
  (Component.is_a_iff_kind _ _).mpr (ComponentKind.kind_apply k n)

theorem CorrelationRule.apply_eq_some_iff (rule : CorrelationRule) (n v : Int) :
    rule.apply n = some v ↔ rule.range.contains n = true ∧ v = n + rule.offset := by
  unfold CorrelationRule.apply
  by_cases h : rule.range.contains n = true <;> simp [h, eq_comm]

/-! ## Claim theorems -/

/-- C1: for every table and every coordinate of the table's source
category, point lookup returns the coordinate unchanged (identity
fallback, destination-tagged) when no rule's source interval contains the
coordinate, and returns `coordinate + offset` of a containing rule when
some rule's source interval contains it. -/
theorem lookup_point_spec (t : CorrelationTable) (n : Int) :
    ((∀ r ∈ t.rules, r.range.contains n = false) →
      t.lookup (t.source.apply n) = some (t.destination.apply n)) ∧
    ((∃ r ∈ t.rules, r.range.contains n = true) →
      ∃ r ∈ t.rules, r.range.contains n = true ∧
        t.lookup (t.source.apply n) = some (t.destination.apply (n + r.offset))) := by
  unfold CorrelationTable.lookup
  rw [ComponentKind.is_a_apply, ComponentKind.number_apply]
  constructor
  · intro hnone
    have hfind : t.rules.findSome? (fun rule => rule.apply n) = none := by
      rw [List.findSome?_eq_none_iff]
      intro r hr
      simp [CorrelationRule.apply, hnone r hr]
    simp [hfind]
  · rintro ⟨r, hr, hcont⟩
    have hsome : (t.rules.findSome? (fun rule => rule.apply n)).isSome := by
      rw [List.findSome?_isSome_iff]
      exact ⟨r, hr, by simp [CorrelationRule.apply, hcont]⟩
    obtain ⟨v, hv⟩ := Option.isSome_iff_exists.mp hsome
    obtain ⟨r', hr', happ⟩ := List.exists_of_findSome?_eq_some hv
    obtain ⟨hcont', hval⟩ := (r'.apply_eq_some_iff n v).mp happ
    exact ⟨r', hr', hcont', by simp [hv, ← hval]⟩

/-- C1 witness: the two branches of `lookup_point_spec` instantiated on a
concrete one-rule table, at a coordinate outside the rule (5) and one
inside it (98). -/
theorem lookup_point_spec_witness :
    pointTable.lookup (.Seed 5) = some (.Soil 5) ∧
    ∃ r ∈ pointTable.rules, r.range.contains 98 = true ∧
      pointTable.lookup (.Seed 98) = some (.Soil (98 + r.offset)) :=
  ⟨(lookup_point_spec pointTable 5).1 (by decide),
   (lookup_point_spec pointTable 98).2 (by decide)⟩

/-- C4: a lookup with a component whose category is not the table's source
category fails by returning `none` — and `none` arises only from this
category mismatch, so the failure is observable and is never a silently
wrong value. -/
theorem lookup_mismatch_none_iff (t : CorrelationTable) (c : Component) :
    t.lookup c = none ↔ c.is_a t.source = false := by
  unfold CorrelationTable.lookup
  by_cases h : c.is_a t.source = true
  · simp [h]
  · simp only [Bool.not_eq_true] at h
    simp [h]

/-- C4 witness: looking up a soil-tagged quantity in the seed-sourced
table fails with `none`. -/
theorem lookup_mismatch_none_iff_witness :
    pointTable.lookup (.Soil 5) = none :=
  (lookup_mismatch_none_iff pointTable (.Soil 5)).mpr (by decide)

/-- C6: on the published 7-stage example table set, point evaluation of
seeds 79, 14, 55, 13 yields locations 82, 43, 86, 35, and the minimizer
over these four seeds returns 35. -/
theorem end_to_end_example_scenario :
    exampleAlmanac.location_for (.Seed 79) = some (.Location 82) ∧
    exampleAlmanac.location_for (.Seed 14) = some (.Location 43) ∧
    exampleAlmanac.location_for (.Seed 55) = some (.Location 86) ∧
    exampleAlmanac.location_for (.Seed 13) = some (.Location 35) ∧
    exampleAlmanac.lowest_location_number_of
      [.Seed 79, .Seed 14, .Seed 55, .Seed 13] = some 35 := by
  decide

/-- C2 counterexample: on the published example, the range-mode seed
iterator materializes all 27 individual seed coordinates — the range
scenario's result 46 is computed by per-coordinate enumeration, not by
interval evaluation alone. -/
theorem range_scenario_enumerates :
    exampleFarm.iter =
      [.Seed 79, .Seed 80, .Seed 81, .Seed 82, .Seed 83, .Seed 84, .Seed 85,
       .Seed 86, .Seed 87, .Seed 88, .Seed 89, .Seed 90, .Seed 91, .Seed 92,
       .Seed 55, .Seed 56, .Seed 57, .Seed 58, .Seed 59, .Seed 60, .Seed 61,
       .Seed 62, .Seed 63, .Seed 64, .Seed 65, .Seed 66, .Seed 67] ∧
    exampleAlmanac.lowest_location_number_of exampleFarm.iter = some 46 := by
  decide

/-- C2 (amended): with seed ranges `(79,14)` and `(55,13)` the range-mode
minimizer on the published example returns 46, computed by enumerating
the 27 individual seed coordinates of the ranges. -/
theorem range_scenario_minimum :
    exampleAlmanac.lowest_location_number_of exampleFarm.iter = some 46 ∧
    exampleFarm.iter.length = 27 := by
  decide

/-- C3 counterexample: a table list whose category chain has a gap
(seed→soil followed by water→light) is parsed successfully — construction
does not fail on a non-contiguous chain. -/
theorem parse_accepts_broken_chain :
    Almanac.parse brokenChainLines = some brokenChainAlmanac ∧
    chainContiguous brokenChainAlmanac.tables = false := by
  decide

/-- C3 (amended): construction performs no contiguity check at all —
`Almanac::parse` succeeds exactly when every blank-line-separated block is
a well-formed table, independently of the category chain. -/
theorem parse_checks_only_block_shape (instructions : List String) :
    (Almanac.parse instructions).isSome =
      (almanacBlocks instructions).all (fun b => (CorrelationTable.parse b).isSome) := by
  unfold Almanac.parse
  have hmap : ∀ (o : Option (List CorrelationTable)),
      (Option.map Almanac.mk o).isSome = o.isSome := by
    intro o; cases o <;> rfl
  rw [hmap]
  induction almanacBlocks instructions with
  | nil => rfl
  | cons b bs ih =>
      rw [List.mapM_cons, List.all_cons, ← ih]
      cases hb : CorrelationTable.parse b <;>
        cases hbs : bs.mapM CorrelationTable.parse <;>
          simp [hb, hbs]

/-- C7: a rule line whose whitespace-separated fields parse to the integer
triple `(destination_start, source_start, length)` yields exactly the rule
with source interval `[source_start, source_start + length)` and offset
`destination_start - source_start`, and that rule maps any contained
coordinate `c` to `c + destination_start - source_start`. -/
theorem parse_rule_builds_interval_and_offset (rule : List Char)
    (dst src len : Int) (h : ruleNumbers rule = some [dst, src, len]) :
    CorrelationTable.parse_rule rule = some (ruleOfTriple dst src len) ∧
    ∀ c : Int, src ≤ c → c < src + len →
      (ruleOfTriple dst src len).apply c = some (c + (dst - src)) := by
  constructor
  · unfold CorrelationTable.parse_rule
    rw [h]
    rfl
  · intro c h1 h2
    simp [ruleOfTriple, CorrelationRule.apply, IntRange.contains, h1, h2]

/-- C7 witness: the line `50 98 2` parses to the rule with interval
`[98, 100)` and offset `-48`, which maps 99 to `99 + (50 - 98) = 51`. -/
theorem parse_rule_builds_interval_and_offset_witness :
    CorrelationTable.parse_rule "50 98 2".data = some (ruleOfTriple 50 98 2) ∧
    (ruleOfTriple 50 98 2).apply 99 = some (99 + (50 - 98)) :=
  ⟨(parse_rule_builds_interval_and_offset "50 98 2".data 50 98 2 (by decide)).1,
   (parse_rule_builds_interval_and_offset "50 98 2".data 50 98 2 (by decide)).2
     99 (by decide) (by decide)⟩

/-- Whenever `location_for` over a non-empty table list succeeds, the
result came from the last table's lookup. -/
theorem location_for_last_lookup (l : List CorrelationTable)
    (tl : CorrelationTable) (s r : Component)
    (hlast : l.getLast? = some tl)
    (h : (Almanac.mk l).location_for s = some r) :
    ∃ c, tl.lookup c = some r := by
  obtain ⟨l', rfl⟩ := List.getLast?_eq_some_iff.mp hlast
  unfold Almanac.location_for at h
  rw [List.foldl_append] at h
  simp only [List.foldl_cons, List.foldl_nil] at h
  cases hprev : List.foldl
      (fun result table =>
        match result with
        | some c => table.lookup c
        | none => none)
      (some s) l' with
  | none => rw [hprev] at h; exact absurd h (by simp)
  | some c => rw [hprev] at h; exact ⟨c, h⟩

/-- C9: every successful table lookup returns a component tagged with the
table's destination category; consequently a successful end-to-end
evaluation through a pipeline whose last table ends in the location
category yields a location-tagged quantity. -/
theorem lookup_result_has_destination_kind :
    (∀ (t : CorrelationTable) (c r : Component),
      t.lookup c = some r → r.kind = t.destination) ∧
    (∀ (a : Almanac) (tl : CorrelationTable) (s r : Component),
      a.tables.getLast? = some tl → tl.destination = ComponentKind.Location →
      a.location_for s = some r → r.kind = ComponentKind.Location) := by
  have part1 : ∀ (t : CorrelationTable) (c r : Component),
      t.lookup c = some r → r.kind = t.destination := by
    intro t c r h
    unfold CorrelationTable.lookup at h
    by_cases hc : c.is_a t.source = true
    · simp only [hc, Bool.not_true, Bool.false_eq_true, if_false,
        Option.some.injEq] at h
      rw [← h, ComponentKind.kind_apply]
    · simp only [Bool.not_eq_true] at hc
      simp [hc] at h
  refine ⟨part1, ?_⟩
  intro a tl s r hlast hdest h
  obtain ⟨c, hc⟩ := location_for_last_lookup a.tables tl s r hlast h
  rw [part1 tl c r hc, hdest]

/-- C9 witness: both parts instantiated — a successful lookup in the
seed-to-soil table yields a soil-tagged result, and a successful
evaluation through the one-stage humidity-to-location pipeline yields a
location-tagged result. -/
theorem lookup_result_has_destination_kind_witness :
    (Component.Soil 50).kind = pointTable.destination ∧
    (Component.Location 7).kind = ComponentKind.Location :=
  ⟨lookup_result_has_destination_kind.1 pointTable (.Seed 98) (.Soil 50)
     (by decide),
   lookup_result_has_destination_kind.2 lastStageAlmanac
     ⟨.Humidity, .Location, []⟩ (.Humidity 7) (.Location 7)
     (by decide) rfl (by decide)⟩

/-- Filtering a list to the elements on which `f` succeeds does not change
its `filterMap f`. -/
theorem filterMap_filter_isSome {α β : Type} (f : α → Option β) (l : List α) :
    (l.filter (fun x => (f x).isSome)).filterMap f = l.filterMap f := by
  induction l with
  | nil => rfl
  | cons a l ih =>
      cases ha : f a with
      | none =>
          rw [List.filterMap_cons_none ha, ← ih]
          simp [List.filter_cons, ha]
      | some b =>
          rw [List.filterMap_cons_some ha, ← ih]
          simp [List.filter_cons, ha, List.filterMap_cons_some]

/-- C10: the minimizer silently discards every seed whose end-to-end
evaluation fails: restricting the seed list to the successfully evaluated
seeds does not change the result, a seed list on which every evaluation
fails yields `none` even when non-empty, and one successful seed suffices
for a `some` result. -/
theorem minimizer_discards_failed_seeds :
    (∀ (a : Almanac) (seeds : List Component),
      a.lowest_location_number_of seeds =
        a.lowest_location_number_of
          (seeds.filter (fun s => (a.location_for s).isSome))) ∧
    (∀ (a : Almanac) (seeds : List Component),
      (∀ s ∈ seeds, a.location_for s = none) →
      a.lowest_location_number_of seeds = none) ∧
    (∀ (a : Almanac) (seeds : List Component) (s : Component),
      s ∈ seeds → (a.location_for s).isSome = true →
      (a.lowest_location_number_of seeds).isSome = true) := by
  refine ⟨?_, ?_, ?_⟩
  · intro a seeds
    unfold Almanac.lowest_location_number_of
    rw [filterMap_filter_isSome]
  · intro a seeds hall
    unfold Almanac.lowest_location_number_of
    have hnil : seeds.filterMap (fun seed => a.location_for seed) = [] := by
      induction seeds with
      | nil => rfl
      | cons s l ih =>
          rw [List.filterMap_cons_none (hall s (List.mem_cons_self s l))]
          exact ih (fun x hx => hall x (List.mem_cons_of_mem s hx))
    rw [hnil]
    rfl
  · intro a seeds s hs hsome
    unfold Almanac.lowest_location_number_of
    obtain ⟨r, hr⟩ := Option.isSome_iff_exists.mp hsome
    have hmem : r ∈ seeds.filterMap (fun seed => a.location_for seed) :=
      List.mem_filterMap.mpr ⟨s, hs, hr⟩
    exact List.isSome_min?_of_mem (List.mem_map_of_mem Component.number hmem)

/-- C10 witness: a non-empty seed list whose only seed fails category
matching at the first stage yields `none`, while one successful seed
yields a `some` result. -/
theorem minimizer_discards_failed_seeds_witness :
    mismatchAlmanac.lowest_location_number_of [Component.Seed 5] = none ∧
    (exampleAlmanac.lowest_location_number_of [Component.Seed 79]).isSome = true :=
  ⟨minimizer_discards_failed_seeds.2.1 mismatchAlmanac [Component.Seed 5]
     (by decide),
   minimizer_discards_failed_seeds.2.2 exampleAlmanac [Component.Seed 79]
     (Component.Seed 79) (by decide) (by decide)⟩

/-- The `filterMap` of a list is empty iff `f` fails on every element. -/
theorem filterMap_eq_nil_iff_all_none {α β : Type} (f : α → Option β)
    (l : List α) :
    l.filterMap f = [] ↔ ∀ a ∈ l, f a = none := by
  induction l with
  | nil => simp
  | cons a l ih =>
      cases ha : f a with
      | none =>
          rw [List.filterMap_cons_none ha]
          simp only [ih, List.mem_cons]
          constructor
          · intro h x hx
            cases hx with
            | inl hx => rw [hx]; exact ha
            | inr hx => exact h x hx
          · intro h x hx
            exact h x (Or.inr hx)
      | some b =>
          rw [List.filterMap_cons_some ha]
          simp only [List.mem_cons]
          constructor
          · intro h; cases h
          · intro h
            have := h a (Or.inl rfl)
            rw [ha] at this
            cases this

/-- C5 (amended): the minimizer returns `none` iff no seed in the list
evaluates successfully (so `none` for the empty list); for every
non-empty list whose seeds all evaluate successfully it returns `some` of
the minimum of the terminal coordinates. -/
theorem lowest_none_iff_no_seed_evaluates (a : Almanac)
    (seeds : List Component) :
    (a.lowest_location_number_of seeds = none ↔
      ∀ s ∈ seeds, a.location_for s = none) ∧
    (seeds ≠ [] → (∀ s ∈ seeds, (a.location_for s).isSome = true) →
      ∃ m, a.lowest_location_number_of seeds = some m ∧
        m ∈ (seeds.filterMap (fun s => a.location_for s)).map Component.number ∧
        ∀ x ∈ (seeds.filterMap (fun s => a.location_for s)).map Component.number,
          m ≤ x) := by
  constructor
  · unfold Almanac.lowest_location_number_of
    rw [List.min?_eq_none_iff, List.map_eq_nil_iff]
    exact filterMap_eq_nil_iff_all_none _ seeds
  · intro hne hall
    obtain ⟨s, hs⟩ := List.exists_mem_of_ne_nil seeds hne
    obtain ⟨r, hr⟩ := Option.isSome_iff_exists.mp (hall s hs)
    have hmem : r.number ∈
        (seeds.filterMap (fun x => a.location_for x)).map Component.number :=
      List.mem_map_of_mem Component.number (List.mem_filterMap.mpr ⟨s, hs, hr⟩)
    obtain ⟨m, hm⟩ :=
      Option.isSome_iff_exists.mp (List.isSome_min?_of_mem hmem)
    haveI : Std.Antisymm ((· : Int) ≤ ·) :=
      ⟨fun h1 h2 => le_antisymm h1 h2⟩
    have hchar := (List.min?_eq_some_iff (fun x : Int => le_refl x)
      (fun x y => min_choice x y) (fun x y z => le_min_iff)).mp hm
    refine ⟨m, ?_, hchar.1, fun x hx => hchar.2 x hx⟩
    unfold Almanac.lowest_location_number_of
    exact hm

/-- C5 witness: the second branch of `lowest_none_iff_no_seed_evaluates`
instantiated on the example almanac with two seeds (both evaluate,
producing some minimum), and the first branch on the empty seed list. -/
theorem lowest_none_iff_no_seed_evaluates_witness :
    exampleAlmanac.lowest_location_number_of [] = none ∧
    ∃ m, exampleAlmanac.lowest_location_number_of
        [Component.Seed 79, Component.Seed 14] = some m ∧
      m ∈ (([Component.Seed 79, Component.Seed 14]).filterMap
        (fun s => exampleAlmanac.location_for s)).map Component.number ∧
      ∀ x ∈ (([Component.Seed 79, Component.Seed 14]).filterMap
        (fun s => exampleAlmanac.location_for s)).map Component.number,
        m ≤ x :=
  ⟨(lowest_none_iff_no_seed_evaluates exampleAlmanac []).1.mpr
     (fun s hs => absurd hs (List.not_mem_nil s)),
   (lowest_none_iff_no_seed_evaluates exampleAlmanac
     [Component.Seed 79, Component.Seed 14]).2 (by decide) (by decide)⟩

/-- C5 counterexample: a non-empty seed list on a pipeline whose first
table consumes soil yields `none`, refuting "`none` iff the seed set is
empty". -/
theorem lowest_none_on_nonempty_seeds :
    mismatchAlmanac.lowest_location_number_of [Component.Seed 5] = none ∧
    ([Component.Seed 5] : List Component) ≠ [] := by
  constructor
  · decide
  · intro h; cases h

/-- Two rules of a pairwise-disjoint rule list that both translate the
same coordinate agree on the translated value. -/
theorem rulesDisjoint_agree {rules : List CorrelationRule}
    (hdisj : rulesDisjoint rules) :
    ∀ a ∈ rules, ∀ b ∈ rules, ∀ (n u v : Int),
      a.apply n = some u → b.apply n = some v → u = v := by
  intro a ha b hb n u v hau hbv
  obtain ⟨hca, hua⟩ := (a.apply_eq_some_iff n u).mp hau
  obtain ⟨hcb, hvb⟩ := (b.apply_eq_some_iff n v).mp hbv
  by_cases hab : a = b
  · rw [hua, hvb, hab]
  · have hsymm : Symmetric (fun r s : CorrelationRule => ∀ k : Int,
        ¬(r.range.contains k = true ∧ s.range.contains k = true)) :=
      fun r s h k hk => h k ⟨hk.2, hk.1⟩
    exact absurd ⟨hca, hcb⟩ (hdisj.forall hsymm ha hb hab n)

/-- `findSome?` does not depend on the list order when any two elements
succeeding on the same input agree on the produced value. -/
theorem findSome?_perm_of_agree {α β : Type} {f : α → Option β}
    {l₁ l₂ : List α} (hp : l₁.Perm l₂)
    (hagree : ∀ a ∈ l₁, ∀ b ∈ l₁, ∀ u v, f a = some u → f b = some v → u = v) :
    l₁.findSome? f = l₂.findSome? f := by
  induction hp with
  | nil => rfl
  | @cons x t₁ t₂ h ih =>
      rw [List.findSome?_cons, List.findSome?_cons]
      cases hx : f x with
      | some b => rfl
      | none =>
          exact ih (fun a ha b hb =>
            hagree a (List.mem_cons_of_mem x ha) b (List.mem_cons_of_mem x hb))
  | @swap x y l =>
      rw [List.findSome?_cons, List.findSome?_cons,
        List.findSome?_cons, List.findSome?_cons]
      cases hy : f y with
      | some u =>
          cases hx : f x with
          | some v =>
              have hyx := hagree y (by simp) x (by simp) u v hy hx
              rw [hyx]
          | none => rfl
      | none =>
          cases hx : f x with
          | some v => rfl
          | none => rfl
  | @trans l₁ l₂ l₃ h1 h2 ih1 ih2 =>
      rw [ih1 hagree]
      exact ih2 (fun a ha b hb =>
        hagree a (h1.mem_iff.mpr ha) b (h1.mem_iff.mpr hb))

/-- C8: when a table's rules have pairwise-disjoint source intervals,
point lookup returns the same result for any permutation of the rule
list. -/
theorem lookup_rule_order_independent (t : CorrelationTable)
    (rules₂ : List CorrelationRule) (c : Component)
    (hdisj : rulesDisjoint t.rules) (hperm : t.rules.Perm rules₂) :
    CorrelationTable.lookup ⟨t.source, t.destination, rules₂⟩ c = t.lookup c := by
  unfold CorrelationTable.lookup
  have hfind : t.rules.findSome? (fun rule => rule.apply c.number) =
      rules₂.findSome? (fun rule => rule.apply c.number) :=
    findSome?_perm_of_agree hperm
      (fun a ha b hb u v hau hbv =>
        rulesDisjoint_agree hdisj a ha b hb c.number u v hau hbv)
  simp only [hfind]

/-- C8 witness: the two-rule seed-to-soil stage of the example, with its
rule list reversed, looks up seed 99 identically. -/
theorem lookup_rule_order_independent_witness :
    CorrelationTable.lookup
      ⟨ComponentKind.Seed, ComponentKind.Soil,
       [ruleOfTriple 52 50 48, ruleOfTriple 50 98 2]⟩ (.Seed 99) =
    twoRuleTable.lookup (.Seed 99) :=
  lookup_rule_order_independent twoRuleTable
    [ruleOfTriple 52 50 48, ruleOfTriple 50 98 2] (.Seed 99)
    (by
      refine List.Pairwise.cons ?_ (List.pairwise_singleton _ _)
      intro s hs n hn
      rw [List.mem_singleton] at hs
      rw [hs] at hn
      simp [ruleOfTriple, IntRange.contains] at hn
      omega)
    (List.Perm.swap (ruleOfTriple 52 50 48) (ruleOfTriple 50 98 2) [])

end Day05
